import Mathlib

/-!
Shallow embedding of the category-grid / binning / share-normalization core of
the 25-database analysis repository (src/analysis_01.py, src/analysis_02.py,
src/analysis_03.py, src/preprocessing/transform.py).

Modelling conventions:
- polars dataframes become Lean lists of rows (structures or tuples);
- floating-point values become rationals; the `astype(float)` cast is the
  identity on rationals;
- a polars left join followed by `pivot(aggregate_function="first")` becomes a
  first-match lookup with `List.find?`, with the missing case filled by the
  `fill_null` value;
- nullable columns become `Option` values; `drop_nulls` becomes a filter on
  `Option.isSome`; comparing a null with `>=` in a polars `filter` yields a
  null mask, which drops the row, so the embedded filter treats `none` as
  failing the comparison.
-/

/-- Bin universe for destination counts, from
src/preprocessing/transform.py line 26. -/
def SPOTS_BINS : List String := ["1", "2", "3", "4", "5+"]

/-- Bin universe for passenger counts, from
src/preprocessing/transform.py line 27. -/
def PASSENGERS_BINS : List String := ["1", "2", "3", "4", "5+"]

/-- Scalar semantics of the binning expression used column-wise by
`add_passengers_bin` and `add_spots_bin` (src/preprocessing/transform.py,
lines 96-101 and 121-126):
`pl.when(col >= threshold).then(lit(f"{threshold}+")).otherwise(col.cast(Utf8))`.
The same expression appears inline in `preprocess_for_passengers_analysis`
(src/analysis_02.py lines 131-136). -/
def assign_bin (value : Int) (threshold : Int) : String :=
  if threshold ≤ value then toString threshold ++ "+" else toString value

/-- Modelled from the spec: the generic `build_grid` contract of the
CategoryGridBuilder (spec section 4.2). The repository only contains concrete
instantiations of this algorithm (`create_heatmap_matrix` in
src/analysis_01.py with the fixed day-of-week and hour universes, and
`create_heatmap_matrix` in src/analysis_03.py with the fixed bin universes);
the generic function over arbitrary universes does not exist under src/.
Steps: cross-product of the two universes, first-match left merge of the
sparse rows keyed by (row category, column category), `fill_value` for the
unmatched pairs, reshaped in declared universe order. `grid_lookup` is the
per-cell left merge: the value of the first sparse row whose key is the
cell's (row category, column category) pair, or `fill_value` when no sparse
row matches, which is the `fill_null` step. -/
def grid_lookup {α β : Type} [DecidableEq α] [DecidableEq β]
    (sparse_rows : List (α × β × ℚ)) (fill_value : ℚ) (r : α) (c : β) : ℚ :=
  match sparse_rows.find? (fun t => t.1 = r ∧ t.2.1 = c) with
  | some t => t.2.2
  | none => fill_value

/-- Modelled from the spec: the grid assembly step of `build_grid` (spec
section 4.2), one row per row-universe label in declared order, one cell per
column-universe label in declared order. -/
def build_grid {α β : Type} [DecidableEq α] [DecidableEq β]
    (sparse_rows : List (α × β × ℚ)) (row_universe : List α)
    (col_universe : List β) (fill_value : ℚ) : List (List ℚ) :=
  row_universe.map (fun r =>
    col_universe.map (fun c => grid_lookup sparse_rows fill_value r c))

/-- The count-matrix part of `create_heatmap_matrix` in src/analysis_03.py
(lines 124-164): pivot the aggregate on (passengers_bin, spots_bin) with
first-match aggregation, fill nulls with 0, insert the missing universe
columns and rows as zeros, reorder the rows by `PASSENGERS_BINS` and select
the columns in `SPOTS_BINS` order. For aggregates whose bins lie inside the
two universes (the case produced by the pipeline and assumed by the spec)
that whole sequence is exactly: one cell per universe pair, holding the first
matching count, 0 when no aggregate row matches. -/
def heatmap_counts_matrix (counts : List (String × String × ℚ)) :
    List (List ℚ) :=
  PASSENGERS_BINS.map (fun p =>
    SPOTS_BINS.map (fun s => grid_lookup counts 0 p s))

/-- Global share normalization, from src/analysis_03.py lines 164-170:
`total = mat_counts.sum()` and
`mat_share = mat_counts / total if total > 0 else mat_counts.astype(float)`.
This is the `normalize(matrix, "global")` mode of the spec's ShareNormalizer;
on rationals the float cast of the fallback branch is the identity. -/
def normalize_global (m : List (List ℚ)) : List (List ℚ) :=
  let total := (m.map List.sum).sum
  if 0 < total then m.map (fun row => row.map (fun x => x / total)) else m

/-- `create_heatmap_matrix` of src/analysis_03.py (lines 115-170): the count
matrix followed by the global share normalization. -/
def create_heatmap_matrix_03 (counts : List (String × String × ℚ)) :
    List (List ℚ) :=
  normalize_global (heatmap_counts_matrix counts)

/-- One row of the aggregate produced by `aggregate_by_user_type_dow_hour`
(src/analysis_01.py lines 92-105): `group_by(["user_type", "dow", "hour"])`
with the group size as `ride_count`. -/
structure AggRow where
  user_type : String
  dow : ℕ
  hour : ℕ
  ride_count : ℕ
deriving DecidableEq, Repr

/-- The per-type totals `total_by_type` computed inside
`calculate_share_within_type` (src/analysis_01.py lines 117-119):
`agg.group_by("user_type").agg(ride_count.sum())`. One entry per distinct
user type, holding the sum of `ride_count` over that type's rows. -/
def total_by_type (agg : List AggRow) : List (String × ℕ) :=
  ((agg.map (fun r => r.user_type)).dedup).map (fun ut =>
    (ut, ((agg.filter (fun r => r.user_type = ut)).map
      (fun r => r.ride_count)).sum))

/-- One row of the output of `calculate_share_within_type`: the aggregate row
with the joined total dropped and `share_within_type` added. -/
structure ShareRow where
  user_type : String
  dow : ℕ
  hour : ℕ
  ride_count : ℕ
  share_within_type : ℚ
deriving DecidableEq, Repr

/-- `calculate_share_within_type` (src/analysis_01.py lines 108-127): left
join of the aggregate with the per-type totals on `user_type`, then
`share_within_type = ride_count / total`. The left join is a first-match
lookup in `total_by_type`; it never misses, since every row's own user type
occurs in the grouped totals, so the `getD` default is never taken. -/
def calculate_share_within_type (agg : List AggRow) : List ShareRow :=
  agg.map (fun r =>
    let total := ((total_by_type agg).find? (fun p => p.1 = r.user_type)).map
      (fun p => p.2)
    { user_type := r.user_type, dow := r.dow, hour := r.hour,
      ride_count := r.ride_count,
      share_within_type := (r.ride_count : ℚ) / ((total.getD 0 : ℕ) : ℚ) })

/-- `create_dow_hour_grid` (src/analysis_01.py lines 156-165): the cross join
of day-of-week values 0-6 with hour values 0-23, one pair per grid cell, all
hours of a day before the next day. -/
def create_dow_hour_grid : List (ℕ × ℕ) :=
  (List.range 7).flatMap (fun d => (List.range 24).map (fun h => (d, h)))

/-- `create_heatmap_matrix` of src/analysis_01.py (lines 168-206): filter the
share rows to one user type, left join the 7 x 24 grid with the filtered rows
on (dow, hour), fill the misses with 0.0, sort by (dow, hour) and pivot with
rows indexed by dow and columns by hour (`aggregate_function="first"`). The
grid is already sorted, so the pivot of the filled join is: row d, column h
holds the first filtered row with `dow = d` and `hour = h`, or 0 when none
matches. -/
def share_lookup (filtered : List ShareRow) (d h : ℕ) : ℚ :=
  match filtered.find? (fun r => r.dow = d ∧ r.hour = h) with
  | some r => r.share_within_type
  | none => 0

/-- The matrix assembly of `create_heatmap_matrix` in src/analysis_01.py:
rows indexed by dow 0-6, columns by hour 0-23, each cell the left-merged
share via `share_lookup`. -/
def create_heatmap_matrix_01 (agg_out : List ShareRow) (user_type : String) :
    List (List ℚ) :=
  let filtered := agg_out.filter (fun r => r.user_type = user_type)
  (List.range 7).map (fun d =>
    (List.range 24).map (fun h => share_lookup filtered d h))

/-- One input row to `build_ride_features` (src/analysis_03.py lines 48-95)
after the joins: the history row with `spots_n` left-joined from
`count_spots_per_history` (null when the history has no trips), `user_type`
left-joined from the user table (null when the user is unknown), and
`distance` after `cast_distance_to_float` with `strict=False` (null when the
raw value does not parse). The datetime parsing and `duration_min` steps of
the pipeline only touch other columns and are omitted. -/
structure RideRow where
  user_type : Option String
  passengers_count : Option Int
  spots_n : Option Int
  distance : Option ℚ
deriving DecidableEq, Repr

/-- One row of the output of `build_ride_features`: `spots_n` is non-null
after `fill_null(0)`, and the two bin columns of `add_bin_columns`
(src/preprocessing/transform.py lines 129-147) are added. `spots_bin` is
computed from the filled `spots_n`, so it is never null; `passengers_bin` is
null exactly when `passengers_count` is null (a null count gives a null bin
both through the `when` mask and through the `cast(Utf8)` branch). -/
structure RideFeat where
  user_type : Option String
  passengers_count : Option Int
  spots_n : Int
  distance : Option ℚ
  spots_bin : String
  passengers_bin : Option String
deriving DecidableEq, Repr

/-- `build_ride_features` (src/analysis_03.py lines 48-95): fill the missing
`spots_n` with 0, add the bin columns via `add_bin_columns`, keep only the
rows with `spots_n >= 1` and `passengers_count >= 1` (a null count fails the
comparison), then `drop_nulls` on user_type, distance, passengers_count,
spots_bin and passengers_bin. -/
def build_ride_features (rows : List RideRow) : List RideFeat :=
  ((rows.map (fun r =>
      let spots := r.spots_n.getD 0
      { user_type := r.user_type, passengers_count := r.passengers_count,
        spots_n := spots, distance := r.distance,
        spots_bin := assign_bin spots 5,
        passengers_bin := r.passengers_count.map (fun p => assign_bin p 5)
        : RideFeat })).filter (fun r =>
      decide (1 ≤ r.spots_n) && (match r.passengers_count with
        | some p => decide (1 ≤ p)
        | none => false))).filter (fun r =>
    r.user_type.isSome && r.distance.isSome && r.passengers_count.isSome &&
      r.passengers_bin.isSome)

/-- `aggregate_passengers_spots_counts` (src/analysis_03.py lines 103-112):
`group_by(["passengers_bin", "spots_bin"]).agg(len().alias("n"))`. One entry
per distinct (passengers_bin, spots_bin) pair, with the number of rows in the
group; `passengers_bin` is unwrapped with a default that is never taken on
the pipeline's input, where the column is non-null. -/
def aggregate_passengers_spots_counts (df : List RideFeat) :
    List (String × String × ℚ) :=
  ((df.map (fun r => (r.passengers_bin.getD (""), r.spots_bin))).dedup).map
    (fun k => (k.1, k.2,
      ((df.filter (fun r =>
        r.passengers_bin.getD ("") = k.1 ∧ r.spots_bin = k.2)).length : ℚ)))

example : assign_bin 4 5 = "4" := by decide
example : assign_bin 5 5 = "5+" := by decide
example : build_grid [(("a" : String), ("x" : String), (3 : ℚ))]
    ["a", "b"] ["x", "y"] 0 = [[3, 0], [0, 0]] := by decide

/-- The count matrix of src/analysis_03.py is the generic grid builder
instantiated at the two bin universes with fill value 0. -/
theorem heatmap_counts_matrix_eq_build_grid (counts : List (String × String × ℚ)) :
    heatmap_counts_matrix counts = build_grid counts PASSENGERS_BINS SPOTS_BINS 0 :=
  rfl

/-- Filtering by a predicate implied by the search predicate does not change
the first match. -/
theorem list_find?_filter_of_imp {α : Type} (l : List α) (p q : α → Bool)
    (h : ∀ x, p x = true → q x = true) :
    (l.filter q).find? p = l.find? p := by
  induction l with
  | nil => rfl
  | cons a l ih =>
    by_cases hq : q a = true
    · rw [List.filter_cons_of_pos hq]
      by_cases hp : p a = true
      · rw [List.find?_cons_of_pos _ hp, List.find?_cons_of_pos _ hp]
      · rw [List.find?_cons_of_neg _ (by simpa using hp),
          List.find?_cons_of_neg _ (by simpa using hp)]
        exact ih
    · have hp : ¬ p a = true := fun hpa => hq (h a hpa)
      rw [List.filter_cons_of_neg hq, List.find?_cons_of_neg _ (by simpa using hp)]
      exact ih

/-- In a list of triples whose (first, second) keys are pairwise distinct, the
first match for the key of a member is that member itself. -/
theorem list_find?_key_of_nodup {α β : Type} [DecidableEq α] [DecidableEq β]
    (rows : List (α × β × ℚ)) (t : α × β × ℚ)
    (hnd : (rows.map (fun u => (u.1, u.2.1))).Nodup) (ht : t ∈ rows) :
    rows.find? (fun u => u.1 = t.1 ∧ u.2.1 = t.2.1) = some t := by
  induction rows with
  | nil => cases ht
  | cons a l ih =>
    rw [List.map_cons, List.nodup_cons] at hnd
    rcases List.mem_cons.mp ht with h | h
    · subst h
      exact List.find?_cons_of_pos _ (by simp)
    · have ha : ¬ (a.1 = t.1 ∧ a.2.1 = t.2.1) := by
        rintro ⟨h1, h2⟩
        exact hnd.1 (by
          rw [h1, h2]
          exact List.mem_map_of_mem _ h)
      rw [List.find?_cons_of_neg _ (by simpa using ha)]
      exact ih hnd.2 h

/-- The cell lookup underlying both claim statements about grid positions:
in a grid built from rows with pairwise-distinct keys, the cell addressed by
the universe indices of a member's key holds that member's value. -/
theorem build_grid_cell_of_mem {α β : Type} [DecidableEq α] [DecidableEq β]
    (rows : List (α × β × ℚ)) (ru : List α) (cu : List β) (f : ℚ)
    (hnd : (rows.map (fun u => (u.1, u.2.1))).Nodup)
    (t : α × β × ℚ) (ht : t ∈ rows) (hr : t.1 ∈ ru) (hc : t.2.1 ∈ cu) :
    ((build_grid rows ru cu f)[ru.indexOf t.1]?.bind
      (fun row => row[cu.indexOf t.2.1]?)) = some t.2.2 := by
  have hri : ru.indexOf t.1 < ru.length := List.indexOf_lt_length.mpr hr
  have hci : cu.indexOf t.2.1 < cu.length := List.indexOf_lt_length.mpr hc
  unfold build_grid
  rw [List.getElem?_map, List.getElem?_eq_getElem hri, List.getElem_indexOf hri]
  rw [Option.map_some', Option.some_bind]
  rw [List.getElem?_map, List.getElem?_eq_getElem hci, List.getElem_indexOf hci]
  rw [Option.map_some']
  unfold grid_lookup
  rw [list_find?_key_of_nodup rows t hnd ht]

/-- First match by first component in a list of pairs built by pairing each
element with a function of it. -/
theorem list_find?_map_pair {α γ : Type} [DecidableEq α] (l : List α)
    (g : α → γ) (a : α) (h : a ∈ l) :
    (l.map (fun x => (x, g x))).find? (fun p => p.1 = a) = some (a, g a) := by
  induction l with
  | nil => cases h
  | cons b l ih =>
    by_cases hb : b = a
    · subst hb
      exact List.find?_cons_of_pos _ (by simp)
    · rw [List.map_cons, List.find?_cons_of_neg _ (by simpa using hb)]
      exact ih (by
        rcases List.mem_cons.mp h with h1 | h1
        · exact absurd h1.symm hb
        · exact h1)

/-- The per-type total looked up by the share join is the sum of the ride
counts of that type's rows. -/
theorem total_by_type_find? (agg : List AggRow) (ut : String)
    (h : ut ∈ agg.map (fun r => r.user_type)) :
    (total_by_type agg).find? (fun p => p.1 = ut) =
      some (ut, ((agg.filter (fun r => r.user_type = ut)).map
        (fun r => r.ride_count)).sum) := by
  unfold total_by_type
  exact list_find?_map_pair _ _ ut (List.mem_dedup.mpr h)

/-- A list of nonnegative rationals with zero sum is all zeros. -/
theorem list_sum_zero_of_nonneg (l : List ℚ) (h : ∀ x ∈ l, 0 ≤ x)
    (hz : l.sum = 0) : ∀ x ∈ l, x = 0 := by
  induction l with
  | nil => simp
  | cons a l ih =>
    have ha : 0 ≤ a := h a (List.mem_cons_self a l)
    have hl : 0 ≤ l.sum :=
      List.sum_nonneg (fun x hx => h x (List.mem_cons_of_mem a hx))
    rw [List.sum_cons] at hz
    intro x hx
    rcases List.mem_cons.mp hx with rfl | hx
    · linarith
    · exact ih (fun y hy => h y (List.mem_cons_of_mem a hy)) (by linarith) x hx

/-- Dividing every element distributes over the list sum. -/
theorem list_sum_map_div (l : List ℚ) (c : ℚ) :
    (l.map (fun x => x / c)).sum = l.sum / c := by
  induction l with
  | nil => simp
  | cons a l ih => simp [ih, add_div]

/-- A sum over a list splits into the part where a numeric field avoids a
value and the part where it equals it. -/
theorem list_sum_filter_ne_eq_split {α : Type} (l : List α) (d : α → ℕ)
    (v : ℕ) (f : α → ℕ) :
    (l.map f).sum
      = ((l.filter (fun a => d a ≠ v)).map f).sum
        + ((l.filter (fun a => d a = v)).map f).sum := by
  induction l with
  | nil => simp
  | cons a l ih =>
    simp only [List.map_cons, List.sum_cons, List.filter_cons]
    by_cases hv : d a = v <;> simp [hv, ih] <;> omega

/-- A cell whose key matches no filtered row is the fill value 0. -/
theorem share_lookup_eq_zero (filtered : List ShareRow) (d h : ℕ)
    (hnone : ∀ r ∈ filtered, ¬ (r.dow = d ∧ r.hour = h)) :
    share_lookup filtered d h = 0 := by
  unfold share_lookup
  rw [List.find?_eq_none.mpr (by intro r hr; simpa using hnone r hr)]

/-- Rows excluded by a predicate implied by the cell key do not change a
cell. -/
theorem share_lookup_filter (filtered : List ShareRow) (q : ShareRow → Bool)
    (d h : ℕ)
    (himp : ∀ r : ShareRow, decide (r.dow = d ∧ r.hour = h) = true →
      q r = true) :
    share_lookup (filtered.filter q) d h = share_lookup filtered d h := by
  unfold share_lookup
  rw [list_find?_filter_of_imp filtered _ q himp]

/-- Claim C1: for every row universe, column universe and fill value,
`build_grid` returns a matrix of shape exactly (length of the row universe,
length of the column universe) for any sparse input, and on the empty input
every cell equals the fill value. -/
theorem claim_C1_build_grid_shape {α β : Type} [DecidableEq α] [DecidableEq β]
    (sparse_rows : List (α × β × ℚ)) (row_universe : List α)
    (col_universe : List β) (fill_value : ℚ) :
    (build_grid sparse_rows row_universe col_universe fill_value).length
        = row_universe.length ∧
    (∀ row ∈ build_grid sparse_rows row_universe col_universe fill_value,
        row.length = col_universe.length) ∧
    (∀ row ∈ build_grid ([] : List (α × β × ℚ)) row_universe col_universe
        fill_value, ∀ x ∈ row, x = fill_value) := by
  refine ⟨by simp [build_grid], ?_, ?_⟩
  · intro row hrow
    obtain ⟨r, -, rfl⟩ := List.mem_map.mp hrow
    simp
  · intro row hrow x hx
    obtain ⟨r, -, rfl⟩ := List.mem_map.mp hrow
    obtain ⟨c, -, rfl⟩ := List.mem_map.mp hx
    simp [grid_lookup]

theorem claim_C1_build_grid_shape_witness :
    (build_grid ([] : List (String × String × ℚ)) ["staff", "student"]
      ["1", "2", "3", "4", "5+"] 0).length = 2 :=
  (claim_C1_build_grid_shape ([] : List (String × String × ℚ))
    ["staff", "student"] ["1", "2", "3", "4", "5+"] 0).1

/-- Claim C2: with unique keys drawn from the declared universes, every
(row category, column category, value) triple of the sparse input appears in
the built grid at exactly the position given by the universe indices of its
two categories, the rows being in row-universe order and the columns in
column-universe order. -/
theorem claim_C2_build_grid_positions {α β : Type} [DecidableEq α]
    [DecidableEq β] (sparse_rows : List (α × β × ℚ)) (row_universe : List α)
    (col_universe : List β) (fill_value : ℚ)
    (hkeys : (sparse_rows.map (fun t => (t.1, t.2.1))).Nodup)
    (huniv : ∀ t ∈ sparse_rows, t.1 ∈ row_universe ∧ t.2.1 ∈ col_universe) :
    ∀ t ∈ sparse_rows,
      ((build_grid sparse_rows row_universe col_universe
          fill_value)[row_universe.indexOf t.1]?.bind
        (fun row => row[col_universe.indexOf t.2.1]?)) = some t.2.2 := by
  intro t ht
  exact build_grid_cell_of_mem sparse_rows row_universe col_universe
    fill_value hkeys t ht (huniv t ht).1 (huniv t ht).2

theorem claim_C2_build_grid_positions_witness :
    ((build_grid [(("staff" : String), ("1" : String), (10 : ℚ)),
        ("staff", "3", 5), ("student", "2", 7)]
      ["staff", "student"] ["1", "2", "3", "4", "5+"]
      0)[(["staff", "student"] : List String).indexOf
        ("staff" : String)]?.bind
      (fun row => row[(["1", "2", "3", "4", "5+"] :
        List String).indexOf ("3" : String)]?)) = some 5 :=
  claim_C2_build_grid_positions _ _ _ 0 (by decide) (by decide)
    ("staff", "3", 5) (by decide)

/-- Claim C3: global normalization divides every cell by the matrix total
when the total is positive; when the total is zero it returns the input
matrix unchanged (the float cast is the identity on rationals), which is
all-zero whenever the inputs are nonnegative counts, and it never divides by
zero; the input shape is preserved in both cases. -/
theorem claim_C3_normalize_global_total (m : List (List ℚ)) :
    (0 < (m.map List.sum).sum →
      normalize_global m =
        m.map (fun row => row.map (fun x => x / (m.map List.sum).sum))) ∧
    ((m.map List.sum).sum = 0 →
      normalize_global m = m ∧
      ((∀ row ∈ m, ∀ x ∈ row, 0 ≤ x) →
        ∀ row ∈ normalize_global m, ∀ x ∈ row, x = 0)) ∧
    (normalize_global m).length = m.length ∧
    (∀ i : ℕ, ((normalize_global m)[i]?).map List.length
        = (m[i]?).map List.length) := by
  refine ⟨fun hpos => ?_, fun hz => ?_, ?_, ?_⟩
  · simp [normalize_global, hpos]
  · have hm : normalize_global m = m := by simp [normalize_global, hz]
    refine ⟨hm, fun hnn row hrow x hx => ?_⟩
    rw [hm] at hrow
    have hsums : ∀ s ∈ m.map List.sum, (0:ℚ) ≤ s := by
      intro s hs
      obtain ⟨r, hr, rfl⟩ := List.mem_map.mp hs
      exact List.sum_nonneg (hnn r hr)
    have hrow0 : row.sum = 0 :=
      list_sum_zero_of_nonneg _ hsums hz _ (List.mem_map_of_mem _ hrow)
    exact list_sum_zero_of_nonneg row (hnn row hrow) hrow0 x hx
  · simp only [normalize_global]
    split <;> simp
  · intro i
    simp only [normalize_global]
    split
    · rw [List.getElem?_map]
      cases m[i]? <;> simp
    · rfl

theorem claim_C3_normalize_global_total_witness :
    normalize_global [[0, 0], [0, 0]] = [[0, 0], [0, 0]] :=
  ((claim_C3_normalize_global_total [[0, 0], [0, 0]]).2.1 (by simp)).1

/-- Claim C4: on a matrix of nonnegative entries with positive total, global
normalization yields cells in the interval from 0 to 1 whose sum is exactly
1. -/
theorem claim_C4_normalize_global_proportions (m : List (List ℚ))
    (hnn : ∀ row ∈ m, ∀ x ∈ row, 0 ≤ x)
    (hpos : 0 < (m.map List.sum).sum) :
    (∀ row ∈ normalize_global m, ∀ x ∈ row, 0 ≤ x ∧ x ≤ 1) ∧
    ((normalize_global m).map List.sum).sum = 1 := by
  have hg : normalize_global m
      = m.map (fun row => row.map (fun x => x / (m.map List.sum).sum)) := by
    simp [normalize_global, hpos]
  constructor
  · intro row hrow x hx
    rw [hg] at hrow
    obtain ⟨row0, hrow0, rfl⟩ := List.mem_map.mp hrow
    obtain ⟨x0, hx0, rfl⟩ := List.mem_map.mp hx
    have h0 : 0 ≤ x0 := hnn row0 hrow0 x0 hx0
    have hsums : ∀ s ∈ m.map List.sum, (0:ℚ) ≤ s := by
      intro s hs
      obtain ⟨r, hr, rfl⟩ := List.mem_map.mp hs
      exact List.sum_nonneg (hnn r hr)
    have hrs : row0.sum ≤ (m.map List.sum).sum :=
      List.single_le_sum hsums _ (List.mem_map_of_mem _ hrow0)
    have hx0le : x0 ≤ (m.map List.sum).sum :=
      le_trans (List.single_le_sum (hnn row0 hrow0) _ hx0) hrs
    exact ⟨div_nonneg h0 (le_of_lt hpos), (div_le_one hpos).mpr hx0le⟩
  · rw [hg, List.map_map]
    have hcomp : (List.sum ∘ fun row : List ℚ =>
        row.map (fun x => x / (m.map List.sum).sum))
        = fun row : List ℚ => row.sum / (m.map List.sum).sum := by
      funext row
      exact list_sum_map_div row _
    rw [hcomp]
    have hswap : m.map (fun row : List ℚ =>
        row.sum / (m.map List.sum).sum)
        = (m.map List.sum).map (fun s => s / (m.map List.sum).sum) := by
      rw [List.map_map]
      rfl
    rw [hswap, list_sum_map_div]
    exact div_self (ne_of_gt hpos)

theorem claim_C4_normalize_global_proportions_witness :
    ((normalize_global [[1]]).map List.sum).sum = 1 :=
  (claim_C4_normalize_global_proportions [[1]] (by decide) (by simp)).2

/-- Claim C5: for a threshold of at least 1, `assign_bin` returns the
sentinel label "{threshold}+" when the value reaches the threshold and the
decimal string of the value otherwise; in particular 4 maps to "4", and 5
and 100 map to "5+" at threshold 5. -/
theorem claim_C5_assign_bin (value threshold : Int) (_ht : 1 ≤ threshold) :
    (threshold ≤ value →
        assign_bin value threshold = toString threshold ++ "+") ∧
    (value < threshold → assign_bin value threshold = toString value) ∧
    assign_bin 4 5 = "4" ∧ assign_bin 5 5 = "5+" ∧
      assign_bin 100 5 = "5+" := by
  refine ⟨fun h => ?_, fun h => ?_, by decide, by decide, by decide⟩
  · simp [assign_bin, h]
  · simp [assign_bin, not_le.mpr h]

theorem claim_C5_assign_bin_witness :
    ((1 : Int) ≤ 5) ∧ assign_bin 7 5 = toString (5 : Int) ++ "+" :=
  ⟨by decide, (claim_C5_assign_bin 7 5 (by decide)).1 (by decide)⟩

/-- Claim C6 counterexample: an aggregate row whose day-of-week 9 lies
outside the 0-6 row universe is silently dropped by the left merge of
`create_heatmap_matrix` in src/analysis_01.py: the result is the same
zero-filled grid as for the empty input, and no error of any kind is raised
(no InvalidCategoryError exists anywhere in the code). -/
theorem claim_C6_counterexample :
    create_heatmap_matrix_01
        [{ user_type := "staff", dow := 9, hour := 0, ride_count := 1,
           share_within_type := 1 }] "staff"
      = create_heatmap_matrix_01 [] "staff" := by
  rfl

/-- Claim C6 amended: instead of failing, `create_heatmap_matrix` of
src/analysis_01.py silently ignores every aggregate row whose (dow, hour)
key lies outside the declared 0-6 by 0-23 universes: the output equals the
grid built from the input restricted to in-universe rows, so out-of-universe
rows leave only fill-value cells behind. -/
theorem claim_C6_amended (agg_out : List ShareRow) (user_type : String) :
    create_heatmap_matrix_01 agg_out user_type
      = create_heatmap_matrix_01
          (agg_out.filter (fun r => r.dow < 7 ∧ r.hour < 24)) user_type := by
  simp only [create_heatmap_matrix_01]
  apply List.map_congr_left
  intro d hd
  apply List.map_congr_left
  intro h hh
  have hd7 : d < 7 := List.mem_range.mp hd
  have hh24 : h < 24 := List.mem_range.mp hh
  have hcomm : (agg_out.filter (fun r => r.dow < 7 ∧ r.hour < 24)).filter
      (fun r => r.user_type = user_type)
      = (agg_out.filter (fun r => r.user_type = user_type)).filter
          (fun r => r.dow < 7 ∧ r.hour < 24) := by
    rw [List.filter_filter, List.filter_filter]
    apply List.filter_congr
    intro x _
    exact Bool.and_comm _ _
  have himp : ∀ r : ShareRow, decide (r.dow = d ∧ r.hour = h) = true →
      decide (r.dow < 7 ∧ r.hour < 24) = true := by
    intro r hrp
    simp only [decide_eq_true_eq] at hrp ⊢
    obtain ⟨h1, h2⟩ := hrp
    constructor <;> omega
  rw [hcomm]
  exact (share_lookup_filter _ _ d h himp).symm

/-- Claim C7 counterexample: at value 0 (below 1) and threshold 5 the
binning expression returns the ordinary string "0" instead of failing; the
expression in src/preprocessing/transform.py is total and no
InvalidValueError exists anywhere in the code. -/
theorem claim_C7_counterexample : assign_bin 0 5 = "0" := by decide

/-- Claim C7 amended: for every value below the threshold, including values
below 1, `assign_bin` returns the decimal string of the value and never
fails; callers filter values of at least 1 upstream. -/
theorem claim_C7_amended (value threshold : Int) (h : value < threshold) :
    assign_bin value threshold = toString value := by
  simp [assign_bin, not_le.mpr h]

theorem claim_C7_amended_witness :
    ((-3 : Int) < 5) ∧ assign_bin (-3) 5 = toString (-3 : Int) :=
  ⟨by decide, claim_C7_amended (-3) 5 (by decide)⟩

/-- Claim C8: in the by-row-group normalization of src/analysis_01.py, every
share equals the row's ride count divided by the total ride count of that
row's user type over the whole original aggregate (the sum over all of that
type's (dow, hour) rows), not by any row sum of the grid built later. -/
theorem claim_C8_share_within_type (agg : List AggRow) (s : ShareRow)
    (hs : s ∈ calculate_share_within_type agg) :
    s.share_within_type = (s.ride_count : ℚ) /
      ((((agg.filter (fun r => r.user_type = s.user_type)).map
        (fun r => r.ride_count)).sum : ℕ) : ℚ) := by
  simp only [calculate_share_within_type] at hs
  obtain ⟨r, hr, rfl⟩ := List.mem_map.mp hs
  dsimp only
  rw [total_by_type_find? agg r.user_type (List.mem_map_of_mem _ hr)]
  simp

theorem claim_C8_share_within_type_witness :
    ({ user_type := "staff", dow := 1, hour := 0, ride_count := 3,
       share_within_type := ((3 : ℕ) : ℚ) / ((4 : ℕ) : ℚ) } :
        ShareRow).share_within_type
      = ((({ user_type := "staff", dow := 1, hour := 0, ride_count := 3,
             share_within_type := ((3 : ℕ) : ℚ) / ((4 : ℕ) : ℚ) } :
              ShareRow).ride_count : ℕ) : ℚ) /
        ((((([{ user_type := "staff", dow := 1, hour := 0, ride_count := 3 },
              { user_type := "staff", dow := 2, hour := 0, ride_count := 1 }] :
               List AggRow).filter
             (fun r => r.user_type = "staff")).map
           (fun r => r.ride_count)).sum : ℕ) : ℚ) :=
  claim_C8_share_within_type
    [{ user_type := "staff", dow := 1, hour := 0, ride_count := 3 },
     { user_type := "staff", dow := 2, hour := 0, ride_count := 1 }]
    _ (by simp [calculate_share_within_type, total_by_type])

/-- Claim C9: the analysis_01 pipeline derives dow from polars weekday
values, which range over 1..7, while the grid enumerates dow 0..6 (taken
here as the hypothesis that every aggregate row has dow between 1 and 7):
(a) row index 0 of the heatmap matrix is entirely 0, (b) the matrix is
unchanged when every dow = 7 share row is removed, so Sunday rides appear in
no cell, and (c) the per-type denominator behind share_within_type still
counts the dow = 7 rows. -/
theorem claim_C9_weekday_mismatch (agg : List AggRow) (user_type : String)
    (hdow : ∀ r ∈ agg, 1 ≤ r.dow ∧ r.dow ≤ 7) :
    ((create_heatmap_matrix_01 (calculate_share_within_type agg)
        user_type)[(0:ℕ)]? = some (List.replicate 24 (0:ℚ))) ∧
    (create_heatmap_matrix_01 (calculate_share_within_type agg) user_type
      = create_heatmap_matrix_01
          ((calculate_share_within_type agg).filter (fun r => r.dow ≠ 7))
          user_type) ∧
    (∀ t : String,
      ((agg.filter (fun r => r.user_type = t)).map
          (fun r => r.ride_count)).sum
        = (((agg.filter (fun r => r.user_type = t)).filter
            (fun r => r.dow ≠ 7)).map (fun r => r.ride_count)).sum
          + (((agg.filter (fun r => r.user_type = t)).filter
            (fun r => r.dow = 7)).map (fun r => r.ride_count)).sum) := by
  have hdow1 : ∀ s ∈ (calculate_share_within_type agg).filter
      (fun r => r.user_type = user_type), 1 ≤ s.dow := by
    intro s hsf
    have hsm := List.mem_filter.mp hsf
    have hs := hsm.1
    simp only [calculate_share_within_type] at hs
    obtain ⟨r, hr, rfl⟩ := List.mem_map.mp hs
    exact (hdow r hr).1
  refine ⟨?_, ?_, ?_⟩
  · simp only [create_heatmap_matrix_01]
    rw [List.getElem?_map, List.getElem?_range (by omega : (0:ℕ) < 7)]
    simp only [Option.map_some']
    congr 1
    have hcell : ∀ h ∈ List.range 24,
        share_lookup ((calculate_share_within_type agg).filter
          (fun r => r.user_type = user_type)) 0 h = (fun _ : ℕ => (0:ℚ)) h := by
      intro h _
      apply share_lookup_eq_zero
      intro r hrf
      rintro ⟨hr0, -⟩
      have := hdow1 r hrf
      omega
    rw [List.map_congr_left hcell, List.map_const', List.length_range]
  · simp only [create_heatmap_matrix_01]
    apply List.map_congr_left
    intro d hd
    apply List.map_congr_left
    intro h _
    have hd7 : d < 7 := List.mem_range.mp hd
    have hcomm : ((calculate_share_within_type agg).filter
        (fun r => r.dow ≠ 7)).filter (fun r => r.user_type = user_type)
        = ((calculate_share_within_type agg).filter
            (fun r => r.user_type = user_type)).filter (fun r => r.dow ≠ 7) := by
      rw [List.filter_filter, List.filter_filter]
      apply List.filter_congr
      intro x _
      exact Bool.and_comm _ _
    have himp : ∀ r : ShareRow, decide (r.dow = d ∧ r.hour = h) = true →
        decide (r.dow ≠ 7) = true := by
      intro r hrp
      simp only [decide_eq_true_eq] at hrp ⊢
      omega
    rw [hcomm]
    exact (share_lookup_filter _ _ d h himp).symm
  · intro t
    exact list_sum_filter_ne_eq_split (agg.filter (fun r => r.user_type = t))
      (fun r => r.dow) 7 (fun r => r.ride_count)

theorem claim_C9_weekday_mismatch_witness :
    (create_heatmap_matrix_01 (calculate_share_within_type
        [{ user_type := "staff", dow := 7, hour := 0, ride_count := 2 },
         { user_type := "staff", dow := 1, hour := 0, ride_count := 2 }])
      ("staff"))[(0:ℕ)]? = some (List.replicate 24 (0:ℚ)) :=
  (claim_C9_weekday_mismatch _ ("staff") (by decide)).1

/-- Binning any count of at least 1 with threshold 5 lands inside the
five-label bin universe. -/
theorem assign_bin_mem (n : Int) (h : 1 ≤ n) :
    assign_bin n 5 ∈ (["1", "2", "3", "4", "5+"] : List String) := by
  unfold assign_bin
  by_cases h5 : (5 : Int) ≤ n
  · rw [if_pos h5]
    decide
  · rw [if_neg h5]
    have h4 : n ≤ 4 := by omega
    interval_cases n <;> decide

/-- Rebuilding (key, value) triples from their keys and projecting the keys
back is the identity. -/
theorem list_map_keys_of_pairs {γ : Type} (l : List (String × String))
    (c : String × String → γ) :
    (l.map (fun k => (k.1, k.2, c k))).map
      (fun u : String × String × γ => (u.1, u.2.1)) = l := by
  induction l with
  | nil => rfl
  | cons a l ih => simp [ih]

/-- The group-by keys of the aggregate are pairwise distinct. -/
theorem aggregate_keys_nodup (df : List RideFeat) :
    ((aggregate_passengers_spots_counts df).map
      (fun u => (u.1, u.2.1))).Nodup := by
  unfold aggregate_passengers_spots_counts
  rw [list_map_keys_of_pairs]
  exact List.nodup_dedup _

/-- Claim C10: every row surviving `build_ride_features` has spots_n at
least 1, a passengers count of at least 1, non-null user_type and distance,
and bin labels inside the declared universes; consequently every aggregated
(passengers_bin, spots_bin, n) triple lands at its exact universe position
in the count matrix of `create_heatmap_matrix`, so no aggregate row is
silently dropped by the grid construction. -/
theorem claim_C10_ride_features_invariants (rows : List RideRow) :
    (∀ r ∈ build_ride_features rows,
      1 ≤ r.spots_n ∧
      (∃ p, r.passengers_count = some p ∧ 1 ≤ p) ∧
      r.user_type.isSome = true ∧ r.distance.isSome = true ∧
      r.spots_bin ∈ SPOTS_BINS ∧
      (∃ b, r.passengers_bin = some b ∧ b ∈ PASSENGERS_BINS)) ∧
    (∀ t ∈ aggregate_passengers_spots_counts (build_ride_features rows),
      t.1 ∈ PASSENGERS_BINS ∧ t.2.1 ∈ SPOTS_BINS ∧
      ((heatmap_counts_matrix (aggregate_passengers_spots_counts
          (build_ride_features rows)))[PASSENGERS_BINS.indexOf t.1]?.bind
        (fun row => row[SPOTS_BINS.indexOf t.2.1]?)) = some t.2.2) := by
  have hrow : ∀ r ∈ build_ride_features rows,
      1 ≤ r.spots_n ∧
      (∃ p, r.passengers_count = some p ∧ 1 ≤ p) ∧
      r.user_type.isSome = true ∧ r.distance.isSome = true ∧
      r.spots_bin ∈ SPOTS_BINS ∧
      (∃ b, r.passengers_bin = some b ∧ b ∈ PASSENGERS_BINS) := by
    intro r hr
    simp only [build_ride_features] at hr
    rw [List.mem_filter] at hr
    obtain ⟨hr1, hq2⟩ := hr
    rw [List.mem_filter] at hr1
    obtain ⟨hmem, hq1⟩ := hr1
    obtain ⟨r0, -, rfl⟩ := List.mem_map.mp hmem
    rw [Bool.and_eq_true] at hq1
    obtain ⟨hspots, hpass⟩ := hq1
    have hspots1 : 1 ≤ r0.spots_n.getD 0 := of_decide_eq_true hspots
    obtain ⟨p, hp, hp1⟩ : ∃ p, r0.passengers_count = some p ∧ 1 ≤ p := by
      cases hpc : r0.passengers_count with
      | none =>
        rw [hpc] at hpass
        exact absurd hpass (by simp)
      | some p =>
        rw [hpc] at hpass
        exact ⟨p, rfl, of_decide_eq_true hpass⟩
    simp only [Bool.and_eq_true] at hq2
    refine ⟨hspots1, ⟨p, hp, hp1⟩, hq2.1.1.1, hq2.1.1.2, ?_, ?_⟩
    · exact assign_bin_mem _ hspots1
    · refine ⟨assign_bin p 5, ?_, ?_⟩
      · dsimp only
        rw [hp]
        rfl
      · exact assign_bin_mem p hp1
  refine ⟨hrow, ?_⟩
  intro t ht
  have hkey : t.1 ∈ PASSENGERS_BINS ∧ t.2.1 ∈ SPOTS_BINS := by
    simp only [aggregate_passengers_spots_counts] at ht
    obtain ⟨k, hk, rfl⟩ := List.mem_map.mp ht
    have hk2 : k ∈ (build_ride_features rows).map
        (fun r => (r.passengers_bin.getD (""), r.spots_bin)) :=
      List.mem_dedup.mp hk
    obtain ⟨r, hr, rfl⟩ := List.mem_map.mp hk2
    obtain ⟨-, -, -, -, hsb, b, hb, hbmem⟩ := hrow r hr
    constructor
    · dsimp only
      rw [hb]
      exact hbmem
    · exact hsb
  refine ⟨hkey.1, hkey.2, ?_⟩
  rw [heatmap_counts_matrix_eq_build_grid]
  exact build_grid_cell_of_mem _ PASSENGERS_BINS SPOTS_BINS 0
    (aggregate_keys_nodup _) t ht hkey.1 hkey.2

theorem claim_C10_ride_features_invariants_witness :
    ((heatmap_counts_matrix (aggregate_passengers_spots_counts
        (build_ride_features
          [{ user_type := some ("staff"), passengers_count := some 2,
             spots_n := some 3,
             distance := some 1 }])))[PASSENGERS_BINS.indexOf
          ("2" : String)]?.bind
      (fun row => row[SPOTS_BINS.indexOf ("3" : String)]?)) = some 1 :=
  ((claim_C10_ride_features_invariants
    [{ user_type := some ("staff"), passengers_count := some 2,
       spots_n := some 3, distance := some 1 }]).2
    (("2", "3", (1 : ℚ))) (by decide)).2.2
